import Mathlib

/-!
Verification development for the find-all-references provider
(`src/Extension/src/LanguageServer/Providers/findAllReferencesProvider.ts`).

The provider is embedded shallowly: the remote request outcome, the
cancellation flags, the file system and the URI rendering are inputs of an
`Env` record; the side effects on the shared reference session (progress-bar
reset, listener disposal, reference reset, panel view) are recorded as an
ordered event trace; a thrown error is an `Except.error` result.
-/

namespace FindAllReferences

/-- Zero-based line/character position (`vscode.Position` / LSP `Position`). -/
structure Position where
  line : Nat
  character : Nat
  deriving DecidableEq

/-- Reference classification (`ReferenceType` from `references.ts`; only
`Confirmed` is inspected by the provider, via `=== ReferenceType.Confirmed`). -/
inductive ReferenceType where
  | Confirmed
  | ConfirmedCandidate
  | Comment
  | Inactive
  | CannotConfirm
  | NotAReference
  deriving DecidableEq

/-- One hit returned by the server (`ReferenceInfo`). -/
structure ReferenceInfo where
  file : String
  position : Position
  type : ReferenceType
  deriving DecidableEq

/-- Server response (`ReferencesResult`): ordered hits, the matched symbol
text, and the server-side cancellation flag. -/
structure ReferencesResult where
  referenceInfos : List ReferenceInfo
  text : String
  isCanceled : Bool
  deriving DecidableEq

/-- LSP error code for a request superseded by a newer request
(`RequestCancelled` from `protocolFilter.ts`, the LSP constant). -/
def RequestCancelled : Int := -32800

/-- LSP error code for a server-initiated cancellation (`ServerCancelled`). -/
def ServerCancelled : Int := -32802

/-- An error thrown by `languageClient.sendRequest`: either a `ResponseError`
carrying a code, or any other thrown value. -/
inductive ErrVal where
  | responseError (code : Int)
  | otherError (tag : Nat)
  deriving DecidableEq

/-- The catch-clause test
`e instanceof ResponseError && (e.code === RequestCancelled || e.code === ServerCancelled)`. -/
def isCancellationError : ErrVal → Bool
  | .responseError code => code == RequestCancelled || code == ServerCancelled
  | .otherError _ => false

/-- A single-line-pair range (`vscode.Range` built from four numbers). -/
structure Range where
  startLine : Nat
  startCharacter : Nat
  endLine : Nat
  endCharacter : Nat
  deriving DecidableEq

/-- A result location (`vscode.Location`): file URI string plus range. -/
structure Location where
  uri : String
  range : Range
  deriving DecidableEq

/-- A snippet record (the `Refs` type of the source file). The source stores
the constant score `1.0`; no arithmetic is ever performed on it, so it is
carried as the constant `1`. -/
structure Refs where
  snippet : String
  relativePath : String
  startLine : Nat
  endLine : Nat
  score : Nat
  deriving DecidableEq

/-- Observable side effects of one `provideReferences` call, in program
order. -/
inductive Event where
  | cancelCurrentRequestNewRequest
  | subscribeTokenListener
  | subscribeRequestCanceledListener
  | sendRequest
  | resetProgressBar
  | disposeTokenListener
  | disposeRequestCanceledListener
  | writeSnippetEnv
  | resetReferences
  | showResultsInPanelView
  deriving DecidableEq

/-- The environment a single query runs against: the settled outcome of the
remote request, whether the local `cancelSource.token` is cancelled when the
request settles, the file system (`fs.readFileSync(·).toString()`), the URI
rendering `vscode.Uri.file(·).toString()`, and the first workspace folder's
URI string. -/
structure Env where
  remote : Except ErrVal ReferencesResult
  tokenCancelled : Bool
  fs : String → String
  uriOfFile : String → String
  workspaceFolderUri : String

/-- JavaScript `string.split('\n')` on the character list: splitting an empty
string yields one empty piece, and every separator starts a new piece. -/
def jsSplitLinesAux : List Char → List (List Char)
  | [] => [[]]
  | c :: rest =>
    match jsSplitLinesAux rest with
    | [] => [[]]
    | l :: ls => if c = '\n' then [] :: l :: ls else (c :: l) :: ls

/-- `fileContent.split('\n')` from the source. -/
def jsSplitLines (s : String) : List String :=
  (jsSplitLinesAux s.data).map fun l => ⟨l⟩

/-- JavaScript `array.join('\n')`. -/
def jsJoinLines : List String → String
  | [] => ""
  | [s] => s
  | s :: rest => s ++ "\n" ++ jsJoinLines rest

/-- JavaScript `array.slice(s, e)` for non-negative indices. -/
def jsSlice (l : List String) (s e : Nat) : List String :=
  (l.drop s).take (e - s)

/-- `const SnippetWindowSize = 20;` -/
def SnippetWindowSize : Nat := 20

/-- `Math.max(0, referenceInfo.position.line - SnippetWindowSize / 2)`;
the subtraction happens on integers before the clamp. -/
def snippetStartLine (line : Nat) : Nat :=
  (max 0 ((line : Int) - (SnippetWindowSize : Int) / 2)).toNat

/-- `Math.min(fileContentLines.length, referenceInfo.position.line + SnippetWindowSize / 2)`. -/
def snippetEndLine (lineCount line : Nat) : Nat :=
  min lineCount (line + SnippetWindowSize / 2)

/-- `getRelativePathFromUri`: render the file as a URI and drop the base
URI's length plus one characters (`substring(basePath.toString().length + 1)`). -/
def getRelativePathFromUri (uriOfFile : String → String) (basePath : String)
    (file : String) : String :=
  (uriOfFile file).drop (basePath.length + 1)

/-- Mutable state of the `forEach` body: the accumulated locations, the
accumulated snippet records, and the `preventOverlappingSnippet` cursor. -/
structure LoopState where
  locationsResult : List Location
  refs : List Refs
  preventOverlappingSnippet : Nat
  deriving DecidableEq

/-- The location built for a Confirmed hit: file URI plus the range
`[position, position + response.text.length)` on the hit's line. -/
def confirmedLocation (env : Env) (text : String) (ri : ReferenceInfo) : Location :=
  ⟨env.uriOfFile ri.file,
    ⟨ri.position.line, ri.position.character,
      ri.position.line, ri.position.character + text.length⟩⟩

/-- One iteration of the `forEach` over `response.referenceInfos`
(source lines 69–88). -/
def processReference (env : Env) (text : String) (st : LoopState)
    (referenceInfo : ReferenceInfo) : LoopState :=
  if referenceInfo.type == ReferenceType.Confirmed then
    let locationsResult := st.locationsResult ++ [confirmedLocation env text referenceInfo]
    let fileContentLines := jsSplitLines (env.fs referenceInfo.file)
    let startLine := snippetStartLine referenceInfo.position.line
    let endLine := snippetEndLine fileContentLines.length referenceInfo.position.line
    let referenceTextSnippet := jsJoinLines (jsSlice fileContentLines startLine endLine)
    if startLine > st.preventOverlappingSnippet then
      { locationsResult := locationsResult,
        refs := st.refs ++
          [⟨referenceTextSnippet,
            getRelativePathFromUri env.uriOfFile env.workspaceFolderUri referenceInfo.file,
            startLine, endLine, 1⟩],
        preventOverlappingSnippet := endLine }
    else
      { st with locationsResult := locationsResult }
  else st

/-- The whole loop, from the initial state `([], [], 0)`. -/
def processReferences (env : Env) (r : ReferencesResult) : LoopState :=
  r.referenceInfos.foldl (processReference env r.text) ⟨[], [], 0⟩

/-- Result of one `provideReferences` call: the returned value (or the
propagated error), the final value of the `__REFERENCED_SYMBOL_SNIPPET__`
environment variable (`none` when never written), and the event trace. -/
structure ProvideOutcome where
  result : Except ErrVal (Option (List Location))
  snippetEnvVar : Option (List Refs)
  trace : List Event

/-- Events up to and including the awaited request: supersede the previous
query, subscribe the two cancellation listeners, send the request. -/
def entrySequence : List Event :=
  [.cancelCurrentRequestNewRequest, .subscribeTokenListener,
   .subscribeRequestCanceledListener, .sendRequest]

/-- Events of source lines 52–57, run after the request settles without a
rethrow: progress-bar reset, the two disposals, and the first write of the
snippet environment variable (with `[]`). -/
def cleanupSequence : List Event :=
  [.resetProgressBar, .disposeTokenListener, .disposeRequestCanceledListener,
   .writeSnippetEnv]

/-- Source lines 60–98: interpret the settled outcome. `response` is the
response when the request returned, `cancelled` the flag set by the catch
clause. -/
def interpretOutcome (env : Env) (response : Option ReferencesResult)
    (cancelled : Bool) : ProvideOutcome :=
  if env.tokenCancelled || cancelled ||
      (match response with | some r => r.isCanceled | none => false) then
    { result := .ok none, snippetEnvVar := some [],
      trace := entrySequence ++ cleanupSequence ++ [.resetReferences] }
  else
    match response with
    | some r =>
      if r.referenceInfos.length > 0 then
        let st := processReferences env r
        { result := .ok (some st.locationsResult), snippetEnvVar := some st.refs,
          trace := entrySequence ++ cleanupSequence ++
            [.writeSnippetEnv, .showResultsInPanelView] }
      else
        { result := .ok (some []), snippetEnvVar := some [],
          trace := entrySequence ++ cleanupSequence ++ [.resetReferences] }
    | none =>
      { result := .ok (some []), snippetEnvVar := some [],
        trace := entrySequence ++ cleanupSequence ++ [.resetReferences] }

/-- The whole `provideReferences` body. A thrown non-cancellation error is
rethrown from inside the catch clause, so on that path nothing after source
line 47 runs. -/
def provideReferences (env : Env) : ProvideOutcome :=
  match env.remote with
  | .error e =>
    if isCancellationError e then
      interpretOutcome env none true
    else
      { result := .error e, snippetEnvVar := none, trace := entrySequence }
  | .ok response => interpretOutcome env (some response) false

/-- The shared session state counts as reset when `resetReferences` ran,
directly or through the panel view: the source comment on line 91 records
that `ReferencesManager.resetReferences` is called inside
`ReferencesManager.showResultsInPanelView`. -/
def sessionStateReset (t : List Event) : Prop :=
  Event.resetReferences ∈ t ∨ Event.showResultsInPanelView ∈ t

instance (t : List Event) : Decidable (sessionStateReset t) := by
  unfold sessionStateReset; infer_instance

/-- The snippet-relevant projection of the loop state: the accumulated
records and the `preventOverlappingSnippet` cursor. -/
def snipState (st : LoopState) : List Refs × Nat :=
  (st.refs, st.preventOverlappingSnippet)

/-- The action of one loop iteration on the snippet-relevant state alone. -/
def snipStep (env : Env) (s : List Refs × Nat) (ri : ReferenceInfo) :
    List Refs × Nat :=
  if ri.type == ReferenceType.Confirmed then
    let fileContentLines := jsSplitLines (env.fs ri.file)
    let startLine := snippetStartLine ri.position.line
    let endLine := snippetEndLine fileContentLines.length ri.position.line
    let referenceTextSnippet := jsJoinLines (jsSlice fileContentLines startLine endLine)
    if startLine > s.2 then
      (s.1 ++
        [⟨referenceTextSnippet,
          getRelativePathFromUri env.uriOfFile env.workspaceFolderUri ri.file,
          startLine, endLine, 1⟩],
        endLine)
    else s
  else s

/-- The window formula exactly as the specification words it: a symmetric
window of ten lines above and ten below the hit line, clamped to the file's
line range, over the integers. -/
def specSnippetWindow (lineCount line : Nat) : Int × Int :=
  (max 0 ((line : Int) - 10), min (lineCount : Int) ((line : Int) + 10))

/-- A 100-line file (ninety-nine newline characters split into one hundred
lines). -/
def hundredLinesFile : String := ⟨List.replicate 99 '\n'⟩

/-- A 5-line file. -/
def fiveLinesFile : String := ⟨List.replicate 4 '\n'⟩

/-- The environment of the spec's three-hit scenario: Confirmed hits at
lines 5, 8 and 40 of a 100-line file, matched text of length three. -/
def envC1 : Env :=
  { remote := .ok
      { referenceInfos :=
          [⟨"/ws/a.cpp", ⟨5, 0⟩, .Confirmed⟩,
           ⟨"/ws/a.cpp", ⟨8, 0⟩, .Confirmed⟩,
           ⟨"/ws/a.cpp", ⟨40, 0⟩, .Confirmed⟩],
        text := "sym", isCanceled := false },
    tokenCancelled := false,
    fs := fun _ => hundredLinesFile,
    uriOfFile := fun s => "file://" ++ s,
    workspaceFolderUri := "file:///ws" }

/-- An environment whose remote request throws a non-cancellation error. -/
def envC2 : Env :=
  { remote := .error (.otherError 0),
    tokenCancelled := false,
    fs := fun _ => "",
    uriOfFile := fun s => "file://" ++ s,
    workspaceFolderUri := "file:///ws" }

/-- An environment that completes normally with one Confirmed hit; used to
exercise the non-throwing cleanup path. -/
def envC2w : Env :=
  { remote := .ok
      { referenceInfos := [⟨"/ws/a.cpp", ⟨40, 2⟩, .Confirmed⟩],
        text := "sym", isCanceled := false },
    tokenCancelled := false,
    fs := fun _ => hundredLinesFile,
    uriOfFile := fun s => "file://" ++ s,
    workspaceFolderUri := "file:///ws" }

/-- An environment whose remote request throws `ResponseError(RequestCancelled)`. -/
def envC3w : Env :=
  { remote := .error (.responseError RequestCancelled),
    tokenCancelled := false,
    fs := fun _ => "",
    uriOfFile := fun s => "file://" ++ s,
    workspaceFolderUri := "file:///ws" }

/-- The spec scenario: the server answers `isCanceled: true` with hits
present. -/
def envC4w : Env :=
  { remote := .ok
      { referenceInfos := [⟨"/ws/a.cpp", ⟨40, 2⟩, .Confirmed⟩],
        text := "sym", isCanceled := true },
    tokenCancelled := false,
    fs := fun _ => hundredLinesFile,
    uriOfFile := fun s => "file://" ++ s,
    workspaceFolderUri := "file:///ws" }

/-- A completed response whose (non-empty) hit list contains no Confirmed
hit. -/
def envC5w : Env :=
  { remote := .ok
      { referenceInfos :=
          [⟨"/ws/a.cpp", ⟨3, 1⟩, .NotAReference⟩,
           ⟨"/ws/a.cpp", ⟨7, 1⟩, .CannotConfirm⟩],
        text := "sym", isCanceled := false },
    tokenCancelled := false,
    fs := fun _ => hundredLinesFile,
    uriOfFile := fun s => "file://" ++ s,
    workspaceFolderUri := "file:///ws" }

/-- A completed response mixing Confirmed and non-Confirmed hits. -/
def rC6w : ReferencesResult :=
  { referenceInfos :=
      [⟨"/ws/a.cpp", ⟨40, 2⟩, .Confirmed⟩,
       ⟨"/ws/a.cpp", ⟨3, 1⟩, .NotAReference⟩,
       ⟨"/ws/a.cpp", ⟨70, 4⟩, .Confirmed⟩],
    text := "sym", isCanceled := false }

def envC6w : Env :=
  { remote := .ok rC6w,
    tokenCancelled := false,
    fs := fun _ => hundredLinesFile,
    uriOfFile := fun s => "file://" ++ s,
    workspaceFolderUri := "file:///ws" }

/-- Two Confirmed hits whose lines lie beyond the end of a 5-line file: both
windows are inverted (`startLine > endLine`), so the emitted records'
start lines decrease. -/
def envC7 : Env :=
  { remote := .ok
      { referenceInfos :=
          [⟨"/ws/b.cpp", ⟨50, 0⟩, .Confirmed⟩,
           ⟨"/ws/b.cpp", ⟨45, 0⟩, .Confirmed⟩],
        text := "id", isCanceled := false },
    tokenCancelled := false,
    fs := fun _ => fiveLinesFile,
    uriOfFile := fun s => "file://" ++ s,
    workspaceFolderUri := "file:///ws" }

/-- An environment for the clamped-window claim: the first hit sits at line
10, so its window start clamps to 0. -/
def envC10w : Env :=
  { remote := .ok
      { referenceInfos := [], text := "sym", isCanceled := false },
    tokenCancelled := false,
    fs := fun _ => hundredLinesFile,
    uriOfFile := fun s => "file://" ++ s,
    workspaceFolderUri := "file:///ws" }

/-- A Confirmed hit at line 10 (window start clamps to 0). -/
def hitAtLineTen : ReferenceInfo := ⟨"/ws/a.cpp", ⟨10, 3⟩, .Confirmed⟩

/-- A Confirmed hit at line 40. -/
def hitAtLineForty : ReferenceInfo := ⟨"/ws/a.cpp", ⟨40, 2⟩, .Confirmed⟩

/-! ## Helper lemmas about the hit loop -/

theorem processReference_locationsResult (env : Env) (text : String)
    (st : LoopState) (ri : ReferenceInfo) :
    (processReference env text st ri).locationsResult
      = st.locationsResult ++
        (if ri.type == ReferenceType.Confirmed
          then [confirmedLocation env text ri] else []) := by
  simp only [processReference]
  split
  · split <;> simp [*]
  · simp [*]

theorem foldl_locationsResult (env : Env) (text : String)
    (l : List ReferenceInfo) (st : LoopState) :
    (l.foldl (processReference env text) st).locationsResult
      = st.locationsResult ++
        (l.filter (fun ri => ri.type == ReferenceType.Confirmed)).map
          (confirmedLocation env text) := by
  induction l generalizing st with
  | nil => simp
  | cons ri rest ih =>
    simp only [List.foldl_cons, List.filter_cons]
    rw [ih, processReference_locationsResult]
    cases hc : ri.type == ReferenceType.Confirmed <;> simp [hc]

theorem processReference_snipState (env : Env) (text : String)
    (st : LoopState) (ri : ReferenceInfo) :
    snipState (processReference env text st ri)
      = snipStep env (snipState st) ri := by
  simp only [processReference, snipStep, snipState]
  split
  · split <;> rfl
  · rfl

theorem foldl_snipState (env : Env) (text : String)
    (l : List ReferenceInfo) (st : LoopState) :
    snipState (l.foldl (processReference env text) st)
      = l.foldl (snipStep env) (snipState st) := by
  induction l generalizing st with
  | nil => rfl
  | cons ri rest ih =>
    simp only [List.foldl_cons, processReference_snipState, ih]

theorem snippetStartLine_eq_zero (line : Nat)
    (h : line ≤ SnippetWindowSize / 2) : snippetStartLine line = 0 := by
  simp only [snippetStartLine, SnippetWindowSize] at *
  omega

theorem snipStep_of_startLine_zero (env : Env) (s : List Refs × Nat)
    (ri : ReferenceInfo) (h : snippetStartLine ri.position.line = 0) :
    snipStep env s ri = s := by
  simp only [snipStep, h]
  split
  · split
    · omega
    · rfl
  · rfl

theorem snipStep_cases (env : Env) (s : List Refs × Nat) (ri : ReferenceInfo) :
    snipStep env s ri = s ∨
    ((ri.type == ReferenceType.Confirmed) = true ∧
      ∃ rec : Refs, s.2 < rec.startLine ∧
        snipStep env s ri = (s.1 ++ [rec], rec.endLine)) := by
  simp only [snipStep]
  split
  · split
    · exact Or.inr ⟨by assumption, _, by assumption, rfl⟩
    · exact Or.inl rfl
  · exact Or.inl rfl

theorem snipFold_invariant (env : Env) (l : List ReferenceInfo)
    (s : List Refs × Nat)
    (hchain : List.Chain' (fun a b => a.endLine < b.startLine) s.1)
    (hpos : ∀ rec ∈ s.1, 0 < rec.startLine)
    (hlast : ∀ rec ∈ s.1.getLast?, rec.endLine ≤ s.2) :
    List.Chain' (fun a b => a.endLine < b.startLine)
        (l.foldl (snipStep env) s).1
    ∧ (∀ rec ∈ (l.foldl (snipStep env) s).1, 0 < rec.startLine)
    ∧ (∀ rec ∈ (l.foldl (snipStep env) s).1.getLast?,
        rec.endLine ≤ (l.foldl (snipStep env) s).2)
    ∧ (l.foldl (snipStep env) s).1.length
        ≤ s.1.length +
          (l.filter (fun ri => ri.type == ReferenceType.Confirmed)).length := by
  induction l generalizing s with
  | nil =>
    simp only [List.foldl_nil, List.filter_nil]
    exact ⟨hchain, hpos, hlast, by simp⟩
  | cons ri rest ih =>
    rcases snipStep_cases env s ri with hstep | ⟨hconf, rec, hlt, hstep⟩
    · have h := ih s hchain hpos hlast
      simp only [List.foldl_cons, hstep]
      refine ⟨h.1, h.2.1, h.2.2.1, ?_⟩
      have hlen := h.2.2.2
      cases hc : ri.type == ReferenceType.Confirmed <;>
        simp only [List.filter_cons, hc, List.length_cons, if_pos, if_neg,
          Bool.false_eq_true, ite_false, ite_true] <;> omega
    · have hchain' : List.Chain' (fun a b => a.endLine < b.startLine)
          (s.1 ++ [rec]) := by
        rw [List.chain'_append]
        refine ⟨hchain, List.chain'_singleton _, ?_⟩
        intro x hx y hy
        simp only [List.head?_cons, Option.mem_def, Option.some.injEq] at hy
        subst hy
        exact lt_of_le_of_lt (hlast x hx) hlt
      have hpos' : ∀ r ∈ s.1 ++ [rec], 0 < r.startLine := by
        intro r hr
        rcases List.mem_append.mp hr with hr | hr
        · exact hpos r hr
        · simp only [List.mem_singleton] at hr
          subst hr
          omega
      have hlast' : ∀ r ∈ (s.1 ++ [rec]).getLast?, r.endLine ≤ rec.endLine := by
        intro r hr
        rw [List.getLast?_concat] at hr
        simp only [Option.mem_def, Option.some.injEq] at hr
        subst hr
        exact le_refl _
      have h := ih (s.1 ++ [rec], rec.endLine) hchain' hpos' hlast'
      simp only [List.foldl_cons, hstep]
      refine ⟨h.1, h.2.1, h.2.2.1, ?_⟩
      have hlen := h.2.2.2
      simp only [List.length_append, List.length_singleton] at hlen
      simp only [List.filter_cons, hconf, List.length_cons, ite_true, if_pos]
      omega

/-! ## Branch lemmas for the interpretation phase -/

theorem interpretOutcome_cancelled (env : Env)
    (response : Option ReferencesResult) (cancelled : Bool)
    (h : (env.tokenCancelled || cancelled ||
      (match response with | some r => r.isCanceled | none => false)) = true) :
    interpretOutcome env response cancelled =
      { result := .ok none, snippetEnvVar := some [],
        trace := entrySequence ++ cleanupSequence ++ [.resetReferences] } := by
  unfold interpretOutcome
  rw [if_pos h]

theorem interpretOutcome_completed (env : Env) (r : ReferencesResult)
    (htok : env.tokenCancelled = false) (hic : r.isCanceled = false) :
    interpretOutcome env (some r) false =
      if r.referenceInfos.length > 0 then
        { result := .ok (some (processReferences env r).locationsResult),
          snippetEnvVar := some (processReferences env r).refs,
          trace := entrySequence ++ cleanupSequence ++
            [.writeSnippetEnv, .showResultsInPanelView] }
      else
        { result := .ok (some []), snippetEnvVar := some [],
          trace := entrySequence ++ cleanupSequence ++ [.resetReferences] } := by
  unfold interpretOutcome
  rw [if_neg (by simp [htok, hic])]

theorem interpretOutcome_trace_tail (env : Env)
    (response : Option ReferencesResult) (cancelled : Bool) :
    ∃ tail, (interpretOutcome env response cancelled).trace
        = entrySequence ++ cleanupSequence ++ tail
      ∧ ∀ ev ∈ tail, ev = Event.resetReferences ∨ ev = Event.writeSnippetEnv
          ∨ ev = Event.showResultsInPanelView := by
  unfold interpretOutcome
  split
  · exact ⟨[Event.resetReferences], rfl, by simp⟩
  · cases response with
    | some r =>
      dsimp only
      split
      · exact ⟨[Event.writeSnippetEnv, Event.showResultsInPanelView], rfl, by simp⟩
      · exact ⟨[Event.resetReferences], rfl, by simp⟩
    | none => exact ⟨[Event.resetReferences], rfl, by simp⟩

theorem drop_length_succ_append {α : Type} (l : List α) (c : α) (m : List α) :
    (l ++ c :: m).drop (l.length + 1) = m := by
  induction l with
  | nil => simp
  | cons a t ih => simp [ih]

/-! ## Claim theorems -/

/-- C3: a thrown `ResponseError` whose code is `RequestCancelled` or
`ServerCancelled` is treated as a cancellation (no error reaches the caller);
any other thrown error propagates unchanged. -/
theorem C3_error_classification (env : Env) (e : ErrVal)
    (h : env.remote = .error e) :
    (isCancellationError e = true → (provideReferences env).result = .ok none)
    ∧ (isCancellationError e = false →
        (provideReferences env).result = .error e) := by
  constructor
  · intro hc
    simp only [provideReferences, h, hc, if_true]
    rw [interpretOutcome_cancelled env none true (by simp)]
  · intro hc
    simp [provideReferences, h, hc]

/-- C3 witness: a `RequestCancelled`-coded error is swallowed and the result
is `undefined`. -/
theorem C3_witness :
    (isCancellationError (.responseError RequestCancelled) = true →
      (provideReferences envC3w).result = .ok none)
    ∧ (isCancellationError (.responseError RequestCancelled) = false →
      (provideReferences envC3w).result
        = .error (.responseError RequestCancelled)) :=
  C3_error_classification envC3w (.responseError RequestCancelled) rfl

/-- C4: whenever any of the three cancellation conditions holds after the
request settled (local token cancelled, recognized cancellation error, or
`isCanceled` set in the response — even with hits present), the provider
resets the shared references, never shows the panel view, and returns
`undefined` rather than an error value. -/
theorem C4_cancellation (env : Env)
    (hsettled : (∃ r, env.remote = .ok r) ∨
      ∃ e, env.remote = .error e ∧ isCancellationError e = true)
    (hcancel : env.tokenCancelled = true
      ∨ (∃ e, env.remote = .error e ∧ isCancellationError e = true)
      ∨ ∃ r, env.remote = .ok r ∧ r.isCanceled = true) :
    (provideReferences env).result = .ok none
    ∧ Event.resetReferences ∈ (provideReferences env).trace
    ∧ Event.showResultsInPanelView ∉ (provideReferences env).trace := by
  have hred : provideReferences env =
      { result := .ok none, snippetEnvVar := some [],
        trace := entrySequence ++ cleanupSequence ++ [.resetReferences] } := by
    cases hrem : env.remote with
    | error e =>
      have hce : isCancellationError e = true := by
        rcases hsettled with ⟨r, hr⟩ | ⟨e', he, hc⟩
        · rw [hrem] at hr
          exact Except.noConfusion hr
        · rw [hrem] at he
          injection he with he
          subst he
          exact hc
      simp only [provideReferences, hrem, hce, if_true]
      exact interpretOutcome_cancelled env none true (by simp)
    | ok r =>
      simp only [provideReferences, hrem]
      apply interpretOutcome_cancelled
      rcases hcancel with ht | ⟨e, he, _⟩ | ⟨r', hr, hic⟩
      · simp [ht]
      · rw [hrem] at he
        exact Except.noConfusion he
      · rw [hrem] at hr
        injection hr with hr
        subst hr
        simp [hic]
  rw [hred]
  exact ⟨rfl, by decide, by decide⟩

/-- C4 witness: the spec scenario — the server answers `isCanceled: true`
with a Confirmed hit present. -/
theorem C4_witness :
    (provideReferences envC4w).result = .ok none
    ∧ Event.resetReferences ∈ (provideReferences envC4w).trace
    ∧ Event.showResultsInPanelView ∉ (provideReferences envC4w).trace :=
  C4_cancellation envC4w (Or.inl ⟨_, rfl⟩) (Or.inr (Or.inr ⟨_, rfl, rfl⟩))

/-- C5: a non-cancelled completed query with zero Confirmed hits (an empty
hit list, or a non-empty one with no Confirmed entry) returns the empty
location list, and the shared session state is reset (on the non-empty path
through `showResultsInPanelView`, which the source notes calls
`resetReferences`). -/
theorem C5_zero_confirmed (env : Env) (r : ReferencesResult)
    (hok : env.remote = .ok r) (htok : env.tokenCancelled = false)
    (hic : r.isCanceled = false)
    (hzero : ∀ ri ∈ r.referenceInfos, ri.type ≠ ReferenceType.Confirmed) :
    (provideReferences env).result = .ok (some [])
    ∧ sessionStateReset (provideReferences env).trace := by
  have hfilter : r.referenceInfos.filter
      (fun ri => ri.type == ReferenceType.Confirmed) = [] := by
    rw [List.filter_eq_nil_iff]
    intro ri hri
    simpa using hzero ri hri
  simp only [provideReferences, hok]
  rw [interpretOutcome_completed env r htok hic]
  by_cases hlen : r.referenceInfos.length > 0
  · rw [if_pos hlen]
    have hloc : (processReferences env r).locationsResult = [] := by
      unfold processReferences
      rw [foldl_locationsResult, hfilter]
      simp
    constructor
    · show Except.ok (some (processReferences env r).locationsResult) = _
      rw [hloc]
    · refine Or.inr ?_
      show Event.showResultsInPanelView ∈ entrySequence ++ cleanupSequence ++
        [Event.writeSnippetEnv, Event.showResultsInPanelView]
      decide
  · rw [if_neg hlen]
    exact ⟨rfl, Or.inl (by decide)⟩

/-- C5 witness: a non-empty response with no Confirmed hits. -/
theorem C5_witness :
    (provideReferences envC5w).result = .ok (some [])
    ∧ sessionStateReset (provideReferences envC5w).trace :=
  C5_zero_confirmed envC5w _ rfl rfl rfl (by decide)

/-- C6: a non-cancelled completed query returns exactly one `Location` per
Confirmed hit, in the server's order, each spanning
`[position, position + matchedTextLength)` on the hit's own line;
non-Confirmed hits contribute no location. -/
theorem C6_confirmed_locations (env : Env) (r : ReferencesResult)
    (hok : env.remote = .ok r) (htok : env.tokenCancelled = false)
    (hic : r.isCanceled = false) :
    (provideReferences env).result = .ok (some
      ((r.referenceInfos.filter
          (fun ri => ri.type == ReferenceType.Confirmed)).map
        (fun ri =>
          Location.mk (env.uriOfFile ri.file)
            ⟨ri.position.line, ri.position.character, ri.position.line,
              ri.position.character + r.text.length⟩))) := by
  simp only [provideReferences, hok]
  rw [interpretOutcome_completed env r htok hic]
  by_cases hlen : r.referenceInfos.length > 0
  · rw [if_pos hlen]
    show Except.ok (some (processReferences env r).locationsResult) = _
    unfold processReferences
    rw [foldl_locationsResult]
    simp [confirmedLocation]
  · rw [if_neg hlen]
    have hnil : r.referenceInfos = [] := List.length_eq_zero.mp (by omega)
    simp [hnil]

/-- C6 witness: two Confirmed hits and one `NotAReference` hit. -/
theorem C6_witness :
    (provideReferences envC6w).result = .ok (some
      ((rC6w.referenceInfos.filter
          (fun ri => ri.type == ReferenceType.Confirmed)).map
        (fun ri =>
          Location.mk (envC6w.uriOfFile ri.file)
            ⟨ri.position.line, ri.position.character, ri.position.line,
              ri.position.character + rC6w.text.length⟩))) :=
  C6_confirmed_locations envC6w rC6w rfl rfl rfl

/-- C1 counterexample: for Confirmed hits at lines 5, 8 and 40 of a 100-line
file, the provider does return 3 locations but emits only one snippet record,
not two — the hit at line 5 has clamped window start 0, and `0 > 0` fails, so
it is suppressed just like the hit at line 8. -/
theorem C1_counterexample :
    ¬ (((provideReferences envC1).result.toOption.join.getD []).length = 3
      ∧ ((provideReferences envC1).snippetEnvVar.getD []).length = 2) := by
  decide

/-- C1 amended: 3 locations and exactly one snippet record; the hits at
lines 5 (window `[0,15)`) and 8 (window `[0,18)`) are both suppressed because
their clamped window start 0 is not strictly greater than the initial cursor
0, and the hit at line 40 (window `[30,50)`) is emitted. -/
theorem C1_amended :
    ((provideReferences envC1).result.toOption.join.getD []).length = 3
    ∧ ((provideReferences envC1).snippetEnvVar.getD []).map
        (fun rec => (rec.startLine, rec.endLine)) = [(30, 50)] := by
  decide

/-- C2 counterexample: when the remote request throws a non-cancellation
error, the error is rethrown from inside the catch clause, so the
progress-bar reset and both listener disposals are skipped. -/
theorem C2_counterexample :
    (provideReferences envC2).result = .error (.otherError 0)
    ∧ Event.resetProgressBar ∉ (provideReferences envC2).trace
    ∧ Event.disposeTokenListener ∉ (provideReferences envC2).trace
    ∧ Event.disposeRequestCanceledListener ∉ (provideReferences envC2).trace := by
  refine ⟨rfl, ?_, ?_, ?_⟩ <;> decide

/-- C2 amended: on every exit path that does not rethrow (success or
recognized cancellation), the progress indicator is reset and both
cancellation subscriptions are disposed, strictly before any
outcome-interpretation effect; on the non-cancellation-error path the error
propagates without that cleanup. -/
theorem C2_amended (env : Env)
    (h : ∀ e, env.remote = .error e → isCancellationError e = true) :
    Event.resetProgressBar ∈ (provideReferences env).trace
    ∧ Event.disposeTokenListener ∈ (provideReferences env).trace
    ∧ Event.disposeRequestCanceledListener ∈ (provideReferences env).trace
    ∧ ∃ tail, (provideReferences env).trace
          = entrySequence ++ cleanupSequence ++ tail
        ∧ ∀ ev ∈ tail, ev = Event.resetReferences ∨ ev = Event.writeSnippetEnv
            ∨ ev = Event.showResultsInPanelView := by
  have htail : ∃ tail, (provideReferences env).trace
        = entrySequence ++ cleanupSequence ++ tail
      ∧ ∀ ev ∈ tail, ev = Event.resetReferences ∨ ev = Event.writeSnippetEnv
          ∨ ev = Event.showResultsInPanelView := by
    cases hrem : env.remote with
    | error e =>
      have hce := h e hrem
      simp only [provideReferences, hrem, hce, if_true]
      exact interpretOutcome_trace_tail env none true
    | ok r =>
      simp only [provideReferences, hrem]
      exact interpretOutcome_trace_tail env (some r) false
  obtain ⟨tail, htr, hev⟩ := htail
  refine ⟨?_, ?_, ?_, tail, htr, hev⟩ <;> rw [htr] <;>
    simp [entrySequence, cleanupSequence]

/-- C2 witness: a successfully completed query runs the cleanup before the
interpretation effects. -/
theorem C2_witness :
    Event.resetProgressBar ∈ (provideReferences envC2w).trace
    ∧ Event.disposeTokenListener ∈ (provideReferences envC2w).trace
    ∧ Event.disposeRequestCanceledListener ∈ (provideReferences envC2w).trace
    ∧ ∃ tail, (provideReferences envC2w).trace
          = entrySequence ++ cleanupSequence ++ tail
        ∧ ∀ ev ∈ tail, ev = Event.resetReferences ∨ ev = Event.writeSnippetEnv
            ∨ ev = Event.showResultsInPanelView :=
  C2_amended envC2w (fun e he => by simp [envC2w] at he)

/-- C7 counterexample: two Confirmed hits beyond the end of a 5-line file
produce inverted windows `[40,5)` then `[35,5)`; both are emitted, so the
records' start lines are not strictly increasing. -/
theorem C7_counterexample :
    ¬ List.Chain' (fun a b => a.startLine < b.startLine)
        ((provideReferences envC7).snippetEnvVar.getD []) := by
  intro hchain
  have hmap : ((provideReferences envC7).snippetEnvVar.getD []).map
      (fun rec => rec.startLine) = [40, 35] := by decide
  have h2 : List.Chain' (fun a b : Nat => a < b)
      (((provideReferences envC7).snippetEnvVar.getD []).map
        (fun rec => rec.startLine)) :=
    (List.chain'_map _).mpr hchain
  rw [hmap] at h2
  have h3 := (List.chain'_cons.mp h2).1
  omega

/-- C7 amended: the number of emitted records never exceeds the number of
Confirmed hits; a record is emitted only when its start line is strictly
greater than the running cursor (initialized to 0, advanced to the emitted
record's end line), so every record has positive start line and consecutive
records satisfy `next.startLine > previous.endLine`; strictly increasing
start lines additionally require the hit lines to lie within the file. -/
theorem C7_amended (env : Env) (r : ReferencesResult) :
    (processReferences env r).refs.length
      ≤ (r.referenceInfos.filter
          (fun ri => ri.type == ReferenceType.Confirmed)).length
    ∧ List.Chain' (fun a b => a.endLine < b.startLine)
        (processReferences env r).refs
    ∧ ∀ rec ∈ (processReferences env r).refs, 0 < rec.startLine := by
  have hrefs : (processReferences env r).refs
      = (r.referenceInfos.foldl (snipStep env) (([], 0) : List Refs × Nat)).1 :=
    congrArg Prod.fst (foldl_snipState env r.text r.referenceInfos ⟨[], [], 0⟩)
  have hinv := snipFold_invariant env r.referenceInfos ([], 0)
    (by simp) (by simp) (by simp)
  rw [hrefs]
  exact ⟨by simpa using hinv.2.2.2, hinv.1, hinv.2.1⟩

/-- C8: the snippet window of a hit at line `L` in an `N`-line file is
`[max(0, L − 10), min(N, L + 10))` — a 20-line symmetric window (half-size
`SnippetWindowSize / 2 = 10`) clamped to the file's line range. -/
theorem C8_window_formula (line lineCount : Nat) :
    ((snippetStartLine line : Int), (snippetEndLine lineCount line : Int))
      = specSnippetWindow lineCount line := by
  unfold snippetStartLine snippetEndLine specSnippetWindow SnippetWindowSize
  simp only [Prod.mk.injEq]
  constructor <;> omega

/-- C9: when the hit file's URI is the workspace root's URI plus a one-char
separator plus a remainder, the stored relativePath is that remainder, and
re-joining root, separator and relativePath reconstructs the hit file's URI. -/
theorem C9_relativePath_roundtrip (uriOfFile : String → String)
    (root rest : String) (sep : Char) (file : String)
    (h : uriOfFile file = root ++ String.singleton sep ++ rest) :
    root ++ String.singleton sep ++ getRelativePathFromUri uriOfFile root file
      = uriOfFile file := by
  have hd : getRelativePathFromUri uriOfFile root file = rest := by
    unfold getRelativePathFromUri
    rw [h, String.drop_eq]
    have hdata : (root ++ String.singleton sep ++ rest).data
        = root.data ++ sep :: rest.data := by
      simp [String.singleton]
    rw [hdata]
    show (⟨(root.data ++ sep :: rest.data).drop (root.data.length + 1)⟩ : String)
      = rest
    rw [drop_length_succ_append]
  rw [hd, h]

/-- C9 witness: `file:///ws/a.cpp` against root `file:///ws` round-trips. -/
theorem C9_witness :
    "file:///ws" ++ String.singleton '/' ++
      getRelativePathFromUri (fun _ => "file:///ws/a.cpp") "file:///ws" "x"
      = (fun _ => "file:///ws/a.cpp") "x" :=
  C9_relativePath_roundtrip (fun _ => "file:///ws/a.cpp") "file:///ws" "a.cpp"
    '/' "x" (by decide)

/-- C10: a Confirmed hit whose line is at most the half-window size 10 has
clamped window start 0, which is never strictly greater than the cursor
(initialized to 0), so the hit contributes no snippet record — deleting it
from the hit list leaves the emitted records unchanged, even when it is the
first hit — while its location is still produced. -/
theorem C10_clamped_window_hit (env : Env) (text : String)
    (pre post : List ReferenceInfo) (h : ReferenceInfo)
    (hconf : h.type = ReferenceType.Confirmed)
    (hline : h.position.line ≤ SnippetWindowSize / 2) :
    ((pre ++ h :: post).foldl (processReference env text) ⟨[], [], 0⟩).refs
      = ((pre ++ post).foldl (processReference env text) ⟨[], [], 0⟩).refs
    ∧ confirmedLocation env text h
        ∈ ((pre ++ h :: post).foldl
            (processReference env text) ⟨[], [], 0⟩).locationsResult := by
  constructor
  · have hzero := snippetStartLine_eq_zero h.position.line hline
    have e1 : ((pre ++ h :: post).foldl (processReference env text) ⟨[], [], 0⟩).refs
        = ((pre ++ h :: post).foldl (snipStep env) (([], 0) : List Refs × Nat)).1 :=
      congrArg Prod.fst (foldl_snipState env text (pre ++ h :: post) ⟨[], [], 0⟩)
    have e2 : ((pre ++ post).foldl (processReference env text) ⟨[], [], 0⟩).refs
        = ((pre ++ post).foldl (snipStep env) (([], 0) : List Refs × Nat)).1 :=
      congrArg Prod.fst (foldl_snipState env text (pre ++ post) ⟨[], [], 0⟩)
    rw [e1, e2, List.foldl_append, List.foldl_append, List.foldl_cons,
      snipStep_of_startLine_zero env _ h hzero]
  · rw [foldl_locationsResult]
    simp only [List.nil_append]
    exact List.mem_map_of_mem _
      (List.mem_filter.mpr ⟨by simp, by simp [hconf]⟩)

/-- C10 witness: a Confirmed hit at line 10, processed first, yields the same
snippet records as if absent, and its location is present. -/
theorem C10_witness :
    ((([] : List ReferenceInfo) ++ hitAtLineTen :: [hitAtLineForty]).foldl
        (processReference envC10w "sym") ⟨[], [], 0⟩).refs
      = ((([] : List ReferenceInfo) ++ [hitAtLineForty]).foldl
        (processReference envC10w "sym") ⟨[], [], 0⟩).refs
    ∧ confirmedLocation envC10w "sym" hitAtLineTen
        ∈ ((([] : List ReferenceInfo) ++ hitAtLineTen :: [hitAtLineForty]).foldl
          (processReference envC10w "sym") ⟨[], [], 0⟩).locationsResult :=
  C10_clamped_window_hit envC10w "sym" [] [hitAtLineForty] hitAtLineTen rfl
    (by decide)

end FindAllReferences
